import Mathlib

/-!
cloudflare-ddns-updater-cli: address classification and DNS reconciliation.

A shallow embedding of `cmd/cloudflare-ddns-updater-cli/main.go`.

Go strings are modelled by Lean strings and scanned character by character.
Every byte the Go parsers accept is ASCII and a byte of a multi-byte UTF-8
sequence is at least 0x80, so it is rejected exactly where the corresponding
character is rejected here.

The standard-library functions the program calls (`net.ParseIP`, which is
`netip.ParseAddr` followed by a zone check, `net.IP.To4`, `url.Parse` inside
`http.NewRequest`, `json.Marshal`) are embedded from the Go standard library
sources, function by function and under their Go names.
-/

namespace DDNS

/-! ## net/netip: textual address parsing -/

namespace netip

/-- Go: `s[i] >= '0' && s[i] <= '9'`. -/
def isDigit (c : Char) : Bool := decide (48 ≤ c.toNat) && decide (c.toNat ≤ 57)

/-- Go `parseIPv4Fields`, the loop over `s = in[off:end]`.
`prev` is `s[i-1]` (`none` when `i == 0`), the rest of the list being empty
is `i == len(s)-1`; `val`, `digLen`, `pos` and `fields` are the Go variables.
The result is `none` where Go returns an error. -/
def parseIPv4Fields.loop :
    List Char → Option Char → Nat → Nat → Nat → List Nat → Option (List Nat)
  | [], _, val, _, pos, fields =>
    if pos < 3 then none else some (fields.set 3 val)
  | c :: rest, prev, val, digLen, pos, fields =>
    if isDigit c then
      if digLen = 1 ∧ val = 0 then none
      else if val * 10 + (c.toNat - 48) > 255 then none
      else parseIPv4Fields.loop rest (some c) (val * 10 + (c.toNat - 48)) (digLen + 1) pos fields
    else if c = '.' then
      if prev = none ∨ rest = [] ∨ prev = some '.' then none
      else if pos = 3 then none
      else parseIPv4Fields.loop rest (some c) 0 0 (pos + 1) (fields.set pos val)
    else none

/-- Go `parseIPv4Fields(in, off, end, fields)` on `s = in[off:end]` with a
zeroed four-byte destination: the four octets, or `none` on error. -/
def parseIPv4Fields (s : List Char) : Option (List Nat) :=
  parseIPv4Fields.loop s none 0 0 0 [0, 0, 0, 0]

/-- A parsed address: the sixteen bytes of `Addr.As16` and the zone. -/
structure Addr where
  as16 : List Nat
  zone : String
deriving DecidableEq, Repr

/-- Go `AddrFrom4`: an IPv4 address is stored as `::ffff:a.b.c.d`. -/
def AddrFrom4 (f : List Nat) : Addr :=
  ⟨[0, 0, 0, 0, 0, 0, 0, 0, 0, 0, 255, 255] ++ f, ""⟩

/-- Go `parseIPv4`. -/
def parseIPv4 (s : List Char) : Option Addr :=
  match parseIPv4Fields s with
  | none => none
  | some f => some (AddrFrom4 f)

/-- Value of a hexadecimal digit, `none` for any other byte. -/
def hexVal (c : Char) : Option Nat :=
  if 48 ≤ c.toNat ∧ c.toNat ≤ 57 then some (c.toNat - 48)
  else if 97 ≤ c.toNat ∧ c.toNat ≤ 102 then some (c.toNat - 97 + 10)
  else if 65 ≤ c.toNat ∧ c.toNat ≤ 70 then some (c.toNat - 65 + 10)
  else none

/-- The inner loop of Go `parseIPv6` reading one hexadecimal group:
`some (off, acc)` when the loop ends (end of input or a non-hex byte),
`none` where Go returns an error (fifth digit, or value above 0xffff).
`acc` is a `uint32`. -/
def hexRun : List Char → Nat → Nat → Option (Nat × Nat)
  | [], off, acc => some (off, acc)
  | c :: rest, off, acc =>
    match hexVal c with
    | none => some (off, acc)
    | some d =>
      if off > 3 then none
      else if (acc * 16 + d) % 2 ^ 32 > 65535 then none
      else hexRun rest (off + 1) ((acc * 16 + d) % 2 ^ 32)

/-- Writes the four parsed octets into `ip[i:i+4]`. -/
def writeAt (ip : List Nat) (i : Nat) (f : List Nat) : List Nat :=
  (((ip.set i (f.getD 0 0)).set (i + 1) (f.getD 1 0)).set (i + 2) (f.getD 2 0)).set (i + 3)
    (f.getD 3 0)

/-- State of Go `parseIPv6` after its main loop: the unread input `s`, the
index `i`, the bytes `ip` and the position of the ellipsis (`none` is -1). -/
structure V6State where
  s : List Char
  i : Nat
  ip : List Nat
  ellipsis : Option Nat
deriving DecidableEq, Repr

/-- The main loop `for i < 16` of Go `parseIPv6`. The first argument counts
the two-byte slots still free, so that `i = 16 - 2 * slots` is the Go loop
variable and `slots = 0` is the loop condition failing. `none` is a Go error
return. -/
def parseIPv6.loop : Nat → List Char → List Nat → Option Nat → Option V6State
  | 0, s, ip, ellipsis => some ⟨s, 16, ip, ellipsis⟩
  | g + 1, s, ip, ellipsis =>
    match hexRun s 0 0 with
    | none => none
    | some (off, acc) =>
      if off = 0 then none
      else if (s.drop off).head? = some '.' then
        if ellipsis = none ∧ 16 - 2 * (g + 1) ≠ 12 then none
        else if 16 - 2 * (g + 1) + 4 > 16 then none
        else
          match parseIPv4Fields s with
          | none => none
          | some f => some ⟨[], 16 - 2 * (g + 1) + 4, writeAt ip (16 - 2 * (g + 1)) f, ellipsis⟩
      else
        match s.drop off with
        | [] =>
          some ⟨[], 16 - 2 * (g + 1) + 2,
            (ip.set (16 - 2 * (g + 1)) (acc / 256)).set (16 - 2 * (g + 1) + 1) (acc % 256),
            ellipsis⟩
        | c :: s2 =>
          if c ≠ ':' then none
          else
            match s2 with
            | [] => none
            | c2 :: s3 =>
              if c2 = ':' then
                if ellipsis.isSome then none
                else
                  match s3 with
                  | [] =>
                    some ⟨[], 16 - 2 * (g + 1) + 2,
                      (ip.set (16 - 2 * (g + 1)) (acc / 256)).set (16 - 2 * (g + 1) + 1)
                        (acc % 256),
                      some (16 - 2 * (g + 1) + 2)⟩
                  | _ :: _ =>
                    parseIPv6.loop g s3
                      ((ip.set (16 - 2 * (g + 1)) (acc / 256)).set (16 - 2 * (g + 1) + 1)
                        (acc % 256))
                      (some (16 - 2 * (g + 1) + 2))
              else
                parseIPv6.loop g s2
                  ((ip.set (16 - 2 * (g + 1)) (acc / 256)).set (16 - 2 * (g + 1) + 1) (acc % 256))
                  ellipsis

/-- Go: `for j := i - 1; j >= ellipsis; j-- { ip[j+n] = ip[j] }`, the
argument `k` being the number of bytes still to move (`j = ellipsis + k - 1`). -/
def shiftUp (n ellipsis : Nat) : Nat → List Nat → List Nat
  | 0, ip => ip
  | k + 1, ip => shiftUp n ellipsis k (ip.set (ellipsis + k + n) (ip.getD (ellipsis + k) 0))

/-- Go: `clear(ip[ellipsis : ellipsis+n])`. -/
def clearRange (ellipsis : Nat) : Nat → List Nat → List Nat
  | 0, ip => ip
  | k + 1, ip => clearRange ellipsis k (ip.set (ellipsis + k) 0)

/-- Splits at the first `%` (Go `IndexByteString(s, '%')`): the part before
it and, when there is one, the part after it. -/
def cutZone : List Char → List Char × Option (List Char)
  | [] => ([], none)
  | c :: rest =>
    if c = '%' then ([], some rest)
    else ((c :: (cutZone rest).1), (cutZone rest).2)

/-- The part of Go `parseIPv6` after the zone is split off. -/
def parseIPv6.body (s0 : List Char) (zone : String) : Option Addr :=
  let zeros : List Nat := List.replicate 16 0
  let start : List Char × Option Nat :=
    match s0 with
    | ':' :: ':' :: r => (r, some 0)
    | _ => (s0, none)
  if start.2 = some 0 ∧ start.1 = [] then some ⟨zeros, zone⟩
  else
    match parseIPv6.loop 8 start.1 zeros start.2 with
    | none => none
    | some st =>
      if st.s ≠ [] then none
      else if st.i < 16 then
        match st.ellipsis with
        | none => none
        | some e =>
          some ⟨clearRange e (16 - st.i) (shiftUp (16 - st.i) e (st.i - e) st.ip), zone⟩
      else if st.ellipsis.isSome then none
      else some ⟨st.ip, zone⟩

/-- Go `parseIPv6`. -/
def parseIPv6 (input : List Char) : Option Addr :=
  match cutZone input with
  | (s, none) => parseIPv6.body s ""
  | (s, some z) => if z = [] then none else parseIPv6.body s (String.mk z)

/-- The scan of Go `ParseAddr` for the first of `.`, `:` and `%`. -/
def firstSeparator : List Char → Option Char
  | [] => none
  | c :: rest => if c = '.' ∨ c = ':' ∨ c = '%' then some c else firstSeparator rest

/-- Go `netip.ParseAddr`. -/
def ParseAddr (s : String) : Option Addr :=
  match firstSeparator s.data with
  | none => none
  | some c =>
    if c = '.' then parseIPv4 s.data
    else if c = ':' then parseIPv6 s.data
    else none

end netip

/-! ## net: `ParseIP` and `IP.To4` -/

namespace net

/-- Go `net.IP`, a byte slice; the nil slice is `none`. -/
abbrev IP := Option (List Nat)

/-- Go `net.ParseIP`: `netip.ParseAddr`, refusing any zone, then `As16`. -/
def ParseIP (s : String) : IP :=
  match netip.ParseAddr s with
  | none => none
  | some a => if a.zone ≠ "" then none else some a.as16

/-- Go `isZeros(ip[0:10]) && ip[10] == 0xff && ip[11] == 0xff`. -/
def isV4Mapped (b : List Nat) : Bool :=
  (b.take 10).all (fun x => x == 0) && b.getD 10 0 == 255 && b.getD 11 0 == 255

/-- Go `IP.To4`. -/
def To4 (ip : IP) : IP :=
  match ip with
  | none => none
  | some b =>
    if b.length = 4 then some b
    else if b.length = 16 ∧ isV4Mapped b = true then some (b.drop 12)
    else none

end net

/-! ## main.go: `IpAddress` -/

/-- Go `IpAddress`. -/
structure IpAddress where
  RawIp : String
deriving DecidableEq, Repr

/-- Go `(*IpAddress).Parse`. -/
def IpAddress.Parse (a : IpAddress) : net.IP := net.ParseIP a.RawIp

/-- Go `(*IpAddress).IsIPv4`. -/
def IpAddress.IsIPv4 (a : IpAddress) : Bool :=
  a.Parse ≠ none && net.To4 a.Parse ≠ none

/-- Go `(*IpAddress).IsIPv6`. -/
def IpAddress.IsIPv6 (a : IpAddress) : Bool :=
  a.Parse ≠ none && net.To4 a.Parse = none

/-- Go `(*IpAddress).GetRecordType`. -/
def IpAddress.GetRecordType (a : IpAddress) : String :=
  if a.IsIPv4 then "A"
  else if a.IsIPv6 then "AAAA"
  else ""

/-! ## net/url and net/http: building a request -/

namespace url

/-- Go `stringContainsCTLByte`, one byte: below 0x20 or 0x7f. -/
def isCTL (c : Char) : Bool := decide (c.toNat < 32) || decide (c.toNat = 127)

/-- Go `ishex`. -/
def ishex (c : Char) : Bool := (netip.hexVal c).isSome

/-- Go `unescape(s, mode)` in the path and fragment modes, as far as its
error goes: every `%` is followed by two hexadecimal digits. -/
def validEscapes : List Char → Bool
  | [] => true
  | c :: rest =>
    if c = '%' then
      match rest with
      | a :: b :: rest2 => ishex a && ishex b && validEscapes rest2
      | _ => false
    else validEscapes rest

/-- Go `strings.Cut(s, sep)` for a one-byte separator: before and after the
first occurrence (after is empty when there is none). -/
def cut (sep : Char) : List Char → List Char × List Char
  | [] => ([], [])
  | c :: rest => if c = sep then ([], rest) else (c :: (cut sep rest).1, (cut sep rest).2)

/-- Whether Go `url.Parse` accepts a URL that begins with
`https://api.cloudflare.com/`, the only URLs this program builds. With the
scheme and the authority fixed, `Parse` cuts the fragment at the first `#`,
rejects a control byte before it, cuts the query at the first `?`, and
unescapes the path and then the fragment; the query is not checked. -/
def parseOk (rawURL : String) : Bool :=
  !((cut '#' rawURL.data).1.any isCTL)
    && validEscapes (cut '?' (cut '#' rawURL.data).1).1
    && validEscapes (cut '#' rawURL.data).2

end url

namespace http

/-- Go `http.Request`, the fields this program sets. `Header` lists the
`Header.Add` calls in order; `Body` is `none` for a nil body. -/
structure Request where
  Method : String
  URL : String
  Header : List (String × String)
  Body : Option String
deriving DecidableEq, Repr

/-- Go `http.NewRequest` for the methods `GET` and `PATCH`: it fails exactly
when `url.Parse` does. -/
def NewRequest (method rawURL : String) (body : Option String) : Option Request :=
  if url.parseOk rawURL then some ⟨method, rawURL, [], body⟩ else none

/-- Go `req.Header.Add(key, value)`; the keys used are already canonical. -/
def Request.Add (req : Request) (key value : String) : Request :=
  { req with Header := req.Header ++ [(key, value)] }

end http

/-! ## encoding/json: `Marshal` of a `CloudflareUpdate` -/

/-- Go `CloudflareUpdate`. -/
structure CloudflareUpdate where
  Type_ : String
  Name : String
  Content : String
  Ttl : String
  Proxied : Bool
deriving DecidableEq, Repr

namespace json

/-- Go `hex[n]` with `hex = "0123456789abcdef"`. -/
def hex (n : Nat) : Char := "0123456789abcdef".data.getD n '0'

/-- Go `appendString` with HTML escaping on, one character. -/
def escape (c : Char) : List Char :=
  if c.toNat < 128 then
    if 32 ≤ c.toNat ∧ c ≠ '"' ∧ c ≠ '\\' ∧ c ≠ '<' ∧ c ≠ '>' ∧ c ≠ '&' then [c]
    else if c = '\\' ∨ c = '"' then ['\\', c]
    else if c.toNat = 8 then ['\\', 'b']
    else if c.toNat = 12 then ['\\', 'f']
    else if c = '\n' then ['\\', 'n']
    else if c = '\r' then ['\\', 'r']
    else if c = '\t' then ['\\', 't']
    else ['\\', 'u', '0', '0', hex (c.toNat / 16), hex (c.toNat % 16)]
  else if c.toNat = 0x2028 ∨ c.toNat = 0x2029 then
    ['\\', 'u', '2', '0', '2', hex (c.toNat % 16)]
  else [c]

/-- Go `appendString`: a quoted, escaped JSON string. -/
def quote (s : String) : String :=
  String.mk ('"' :: (s.data.flatMap escape ++ ['"']))

/-- Go `json.Marshal(&CloudflareUpdate{...})`: the fields in declaration
order under their `json` tags. It cannot fail for this type. -/
def Marshal (u : CloudflareUpdate) : String :=
  "\x7b\"type\":" ++ quote u.Type_ ++ ",\"name\":" ++ quote u.Name
    ++ ",\"content\":" ++ quote u.Content ++ ",\"ttl\":" ++ quote u.Ttl
    ++ ",\"proxied\":" ++ (if u.Proxied then "true" else "false") ++ "\x7d"

end json

/-! ## main.go: data -/

/-- Go `map[string]string`, as its key/value pairs. -/
abbrev StringMap := List (String × String)

/-- Go `m[key]` on a `map[string]string`: the empty string for a missing key. -/
def StringMap.index (m : StringMap) (key : String) : String :=
  match m.lookup key with
  | some value => value
  | none => ""

/-- Go `Cloudflare`, the response envelope. -/
structure Cloudflare where
  Success : Bool
  Errors : List String
  Messages : List String
  Result : List StringMap
deriving DecidableEq, Repr

/-- Go `Configuration`. -/
structure Configuration where
  Email : String
  Method : String
  Key : String
  ZoneId : String
  RecordName : String
  Ttl : String
  Proxy : Bool
  Notifications : List (String × StringMap)
deriving DecidableEq, Repr

/-- Go `map[string]Configuration`: the entries in the order `range` visits
them, no key occurring twice. -/
structure ConfigMap where
  entries : List (String × Configuration)
  nodup : (entries.map Prod.fst).Nodup

/-- Go `config[key]`, with `none` for a missing key. -/
def ConfigMap.get (config : ConfigMap) (key : String) : Option Configuration :=
  config.entries.lookup key

/-! ## main.go: the provider, the process and `main` -/

/-- What `client.Do`, `ioutil.ReadAll` and `json.Unmarshal` make of one
request: an error of one of the three, or the decoded envelope. -/
inductive Reply where
  | sendError
  | readError
  | decodeError
  | decoded (r : Cloudflare)
deriving DecidableEq, Repr

/-- The provider: the reply to the request sent as call number `n`. -/
abbrev World := Nat → http.Request → Reply

/-- The `log.Fatalf` calls of the reconciliation part of `main`. -/
inductive Fatal where
  | constructRequest
  | sendRequest
  | readResponse
  | unmarshalListing
  | listingNotSuccessful (errors : List String)
  | recordNotFound (ip zone : String)
  | readUpdate
  | unmarshalUpdate
  | updateFailed (errors messages : List String)
deriving DecidableEq, Repr

/-- The `log.Printf` calls of the reconciliation part of `main`. -/
inductive Logged where
  | noNeedToUpdate (recordType ip onFile : String)
  | updated (result : List StringMap)
deriving DecidableEq, Repr

/-- Where the process stands: still running, ended by `log.Fatalf`
(exit status 1) or ended by `os.Exit(0)`. -/
inductive Status where
  | running
  | fatal (f : Fatal)
  | exit0
deriving DecidableEq, Repr

/-- The observable run so far: the requests handed to `client.Do`, the
lines logged, and the status. -/
structure Run where
  calls : List http.Request
  logged : List Logged
  status : Status
deriving DecidableEq, Repr

/-- The exit status of the process: `log.Fatalf` exits 1, `os.Exit(0)` exits
0, and a run still `running` when `main` has nothing left to do returns
from `main`, which exits 0. The deferred close of the address-service body
(lines 93–98) belongs to the part of `main` before line 111; that body has
been read to its end by then and its close is taken to succeed. -/
def Run.exitCode (r : Run) : Nat :=
  match r.status with
  | .fatal _ => 1
  | .exit0 => 0
  | .running => 0

/-- The PATCH requests among the calls. -/
def Run.patches (r : Run) : List http.Request :=
  r.calls.filter (fun q => q.Method = "PATCH")

/-- Lines 122–133 of main.go: the listing request with its headers. -/
def listingRequest (v : Configuration) (pub : IpAddress) : Option http.Request :=
  match http.NewRequest "GET"
      ("https://api.cloudflare.com/client/v4/zones/" ++ v.ZoneId ++ "/dns_records?type="
        ++ pub.GetRecordType ++ "&name=" ++ v.RecordName) none with
  | none => none
  | some verify =>
    let verify1 := verify.Add "X-Auth-Email" v.Email
    let verify2 :=
      if v.Method = "global" then verify1.Add "X-Auth-Key" v.Key
      else verify1.Add "Authorization" ("Bearer " ++ v.Key)
    some (verify2.Add "Content-Type" "application/json")

/-- Lines 164–184 of main.go: the PATCH request for the record `rid`, with
its body and headers. -/
def updateRequest (v : Configuration) (pub : IpAddress) (rid : String) : Option http.Request :=
  match http.NewRequest "PATCH"
      ("https://api.cloudflare.com/client/v4/zones/" ++ v.ZoneId ++ "/dns_records/" ++ rid)
      (some (json.Marshal
        { Type_ := pub.GetRecordType, Name := v.RecordName, Content := pub.RawIp,
          Ttl := v.Ttl, Proxied := v.Proxy })) with
  | none => none
  | some update =>
    let update1 := update.Add "X-Auth-Email" v.Email
    let update2 :=
      if v.Method = "global" then update1.Add "X-Auth-Key" v.Key
      else update1.Add "Authorization" ("Bearer " ++ v.Key)
    some (update2.Add "Content-Type" "application/json")

/-- Lines 158–207 of main.go: `for _, result := range record.Result`. -/
def reconcileLoop (v : Configuration) (pub : IpAddress) (w : World) :
    List StringMap → Run → Run
  | [], run => run
  | result :: rest, run =>
    if result.index "type" = pub.GetRecordType then
      if result.index "content" = pub.RawIp then
        { run with
          logged := run.logged ++
            [.noNeedToUpdate pub.GetRecordType pub.RawIp (result.index "content")],
          status := .exit0 }
      else
        match updateRequest v pub (result.index "id") with
        | none => { run with status := .fatal .constructRequest }
        | some update =>
          match w run.calls.length update with
          | .sendError => { run with calls := run.calls ++ [update], status := .fatal .sendRequest }
          | .readError => { run with calls := run.calls ++ [update], status := .fatal .readUpdate }
          | .decodeError =>
            { run with calls := run.calls ++ [update], status := .fatal .unmarshalUpdate }
          | .decoded updateResult =>
            if updateResult.Success then
              reconcileLoop v pub w rest
                { run with
                  calls := run.calls ++ [update],
                  logged := run.logged ++ [.updated updateResult.Result] }
            else
              { run with
                calls := run.calls ++ [update],
                status := .fatal (.updateFailed updateResult.Errors updateResult.Messages) }
    else reconcileLoop v pub w rest run

/-- Lines 113–207 of main.go: the body of `if k == "cloudflare"`. -/
def cloudflare (v : Configuration) (pub : IpAddress) (w : World) (run : Run) : Run :=
  match listingRequest v pub with
  | none => { run with status := .fatal .constructRequest }
  | some verify =>
    match w run.calls.length verify with
    | .sendError => { run with calls := run.calls ++ [verify], status := .fatal .sendRequest }
    | .readError => { run with calls := run.calls ++ [verify], status := .fatal .readResponse }
    | .decodeError =>
      { run with calls := run.calls ++ [verify], status := .fatal .unmarshalListing }
    | .decoded record =>
      if !record.Success then
        { run with
          calls := run.calls ++ [verify],
          status := .fatal (.listingNotSuccessful record.Errors) }
      else if record.Result.length = 0 then
        { run with
          calls := run.calls ++ [verify],
          status := .fatal (.recordNotFound pub.RawIp v.ZoneId) }
      else reconcileLoop v pub w record.Result { run with calls := run.calls ++ [verify] }

/-- Lines 111–209 of main.go: `for k, v := range config`. -/
def mainLoop (pub : IpAddress) (w : World) : List (String × Configuration) → Run → Run
  | [], run => run
  | (k, v) :: rest, run =>
    if k = "cloudflare" then
      match (cloudflare v pub w run).status with
      | .running => mainLoop pub w rest (cloudflare v pub w run)
      | _ => cloudflare v pub w run
    else mainLoop pub w rest run

/-- Go `main` from line 111 on, the configuration being loaded and the
public address resolved (lines 70–110 only read the arguments, the file and
the address service). -/
def main (config : ConfigMap) (pub : IpAddress) (w : World) : Run :=
  mainLoop pub w config.entries ⟨[], [], .running⟩

/-- Whether the listing call of a run decodes to `record`: the GET request
is built and the provider replies to it, the first call, with `record`. -/
def listingDecodes (v : Configuration) (pub : IpAddress) (w : World) (record : Cloudflare) :
    Bool :=
  match listingRequest v pub with
  | none => false
  | some verify => decide (w 0 verify = .decoded record)

/-- The listing response of a run is the decoded envelope `record`. -/
def Listing (v : Configuration) (pub : IpAddress) (w : World) (record : Cloudflare) : Prop :=
  listingDecodes v pub w record = true

instance (v : Configuration) (pub : IpAddress) (w : World) (record : Cloudflare) :
    Decidable (Listing v pub w record) :=
  inferInstanceAs (Decidable (listingDecodes v pub w record = true))



/-! ## Spec-side notions of a valid literal -/

namespace Spec

/-- The value of a field read as a decimal numeral. -/
def octetVal (f : List Char) : Nat := f.foldl (fun v c => v * 10 + (c.toNat - 48)) 0

/-- One field of a dotted-decimal literal, in the words of the claim: a
non-empty run of decimal digits whose value is in 0..255. -/
def isDecOctet (f : List Char) : Bool :=
  !f.isEmpty && f.all netip.isDigit && decide (octetVal f ≤ 255)

/-- A valid textual IPv4 literal, in the words of the claim: dotted-decimal,
four fields, each in 0..255. -/
def isIPv4Literal (s : String) : Bool :=
  match s.data.splitOn '.' with
  | [a, b, c, d] => isDecOctet a && isDecOctet b && isDecOctet c && isDecOctet d
  | _ => false

/-- A field written without a leading zero: the decimal numeral of a value
in 0..255, of one, two or three digits, the first of which is `0` only when
it is the only one. -/
def isCanonicalOctet : List Char → Bool
  | [a] => netip.isDigit a
  | [a, b] => netip.isDigit a && netip.isDigit b && a != '0'
  | [a, b, c] =>
    netip.isDigit a && netip.isDigit b && netip.isDigit c && a != '0'
      && decide ((a.toNat - 48) * 100 + (b.toNat - 48) * 10 + (c.toNat - 48) ≤ 255)
  | _ => false

/-- A dotted-decimal literal of four fields, each in 0..255 and written
without a leading zero. -/
def isCanonicalIPv4Literal (s : String) : Bool :=
  match s.data.splitOn '.' with
  | [a, b, c, d] =>
    isCanonicalOctet a && isCanonicalOctet b && isCanonicalOctet c && isCanonicalOctet d
  | _ => false

/-- A valid textual IPv6 literal: a colon form (its first separator is a
colon) that the IP parser accepts. -/
def isIPv6Literal (s : String) : Bool :=
  netip.firstSeparator s.data == some ':' && (net.ParseIP s).isSome

end Spec

/-! ## Concrete scenarios -/

namespace Example

/-- The profile of the example scenario: scoped token `abc`, zone `Z1`. -/
def profile : Configuration :=
  ⟨"me@example.com", "token", "abc", "Z1", "home.example.com", "120", false, []⟩

/-- The same profile with the global API key method. -/
def globalProfile : Configuration :=
  ⟨"me@example.com", "global", "abc", "Z1", "home.example.com", "120", false, []⟩

/-- A configuration holding only the `cloudflare` profile. -/
def config : ConfigMap := ⟨[("cloudflare", profile)], by simp⟩

/-- A configuration holding the global-key profile. -/
def globalConfig : ConfigMap := ⟨[("cloudflare", globalProfile)], by simp⟩

/-- The resolved public address of the example scenario. -/
def address : IpAddress := ⟨"203.0.113.7"⟩

/-- A provider record. -/
def record (id type content : String) : StringMap :=
  [("id", id), ("type", type), ("content", content)]

/-- A provider that answers the listing call with the given records and
reports every later call successful. -/
def provider (records : List StringMap) : World := fun n _ =>
  if n = 0 then .decoded ⟨true, [], [], records⟩ else .decoded ⟨true, [], [], []⟩

end Example

namespace Example

/-- The PATCH request of the example scenario for the record `id`. -/
def patch (id : String) : http.Request :=
  ⟨"PATCH", "https://api.cloudflare.com/client/v4/zones/Z1/dns_records/" ++ id,
    [("X-Auth-Email", "me@example.com"), ("Authorization", "Bearer abc"),
      ("Content-Type", "application/json")],
    some ("\x7b\"type\":\"A\",\"name\":\"home.example.com\",\"content\":\"203.0.113.7\","
      ++ "\"ttl\":\"120\",\"proxied\":false\x7d")⟩

/-- A provider that answers the listing call with the given records and
rejects every later call. -/
def rejecting (records : List StringMap) : World := fun n _ =>
  if n = 0 then .decoded ⟨true, [], [], records⟩ else .decoded ⟨false, ["denied"], [], []⟩

/-- The listing envelope holding the given records. -/
def envelope (records : List StringMap) : Cloudflare := ⟨true, [], [], records⟩

end Example

/-! ## Lemmas on the parsers -/

theorem isDigit_bounds {c : Char} (h : netip.isDigit c = true) :
    48 ≤ c.toNat ∧ c.toNat ≤ 57 := by
  simpa [netip.isDigit] using h

theorem toNat_ne_of_ne {c d : Char} (h : c ≠ d) : c.toNat ≠ d.toNat := by
  intro e
  apply h
  rw [← Char.ofNat_toNat c, ← Char.ofNat_toNat d, e]

theorem not_sep_of_isDigit {c : Char} (h : netip.isDigit c = true) :
    c ≠ '.' ∧ c ≠ ':' ∧ c ≠ '%' := by
  have hb := isDigit_bounds h
  refine ⟨?_, ?_, ?_⟩ <;> (rintro rfl; revert hb; decide)

theorem octet_ne_nil {f : List Char} (h : Spec.isCanonicalOctet f = true) : f ≠ [] := by
  rintro rfl
  simp [Spec.isCanonicalOctet] at h

theorem octet_le {f : List Char} (h : Spec.isCanonicalOctet f = true) : Spec.octetVal f ≤ 255 := by
  match f, h with
  | [a], h =>
    have := @isDigit_bounds a (by simpa [Spec.isCanonicalOctet] using h)
    simp only [Spec.octetVal, List.foldl]; omega
  | [a, b], h =>
    simp only [Spec.isCanonicalOctet, Bool.and_eq_true] at h
    have := isDigit_bounds h.1.1
    have := isDigit_bounds h.1.2
    simp only [Spec.octetVal, List.foldl]; omega
  | [a, b, c], h =>
    simp only [Spec.isCanonicalOctet, Bool.and_eq_true, decide_eq_true_eq] at h
    simp only [Spec.octetVal, List.foldl]; omega

/-- A field followed by a dot: the value is stored and the next field begins. -/
theorem loop_octet_dot {f : List Char} (h : Spec.isCanonicalOctet f = true) (r : List Char)
    (hr : r ≠ []) (prev : Option Char) (pos : Nat) (hpos : pos ≠ 3) (fields : List Nat) :
    netip.parseIPv4Fields.loop (f ++ '.' :: r) prev 0 0 pos fields =
      netip.parseIPv4Fields.loop r (some '.') 0 0 (pos + 1) (fields.set pos (Spec.octetVal f)) := by
  have hdot : netip.isDigit '.' = false := by decide
  match f, h with
  | [a], h =>
    have ha : netip.isDigit a = true := by simpa [Spec.isCanonicalOctet] using h
    have hab := isDigit_bounds ha
    have hna := (not_sep_of_isDigit ha).1
    have h1 : ¬ (a.toNat - 48 > 255) := by omega
    simp [netip.parseIPv4Fields.loop, ha, hdot, h1, hr, hpos, hna, Spec.octetVal]
  | [a, b], h =>
    simp only [Spec.isCanonicalOctet, Bool.and_eq_true, bne_iff_ne, ne_eq] at h
    obtain ⟨⟨ha, hb⟩, h0⟩ := h
    have hab := isDigit_bounds ha
    have hbb := isDigit_bounds hb
    have hnb := (not_sep_of_isDigit hb).1
    have h0n : a.toNat ≠ 48 := toNat_ne_of_ne h0
    have h1 : ¬ (a.toNat - 48 > 255) := by omega
    have h2 : ¬ (a.toNat - 48 = 0) := by omega
    have h3 : ¬ ((a.toNat - 48) * 10 + (b.toNat - 48) > 255) := by omega
    simp [netip.parseIPv4Fields.loop, ha, hb, hdot, h1, h2, h3, hr, hpos, hnb, Spec.octetVal]
  | [a, b, c], h =>
    simp only [Spec.isCanonicalOctet, Bool.and_eq_true, bne_iff_ne, ne_eq, decide_eq_true_eq] at h
    obtain ⟨⟨⟨⟨ha, hb⟩, hc⟩, h0⟩, hv⟩ := h
    have hab := isDigit_bounds ha
    have hbb := isDigit_bounds hb
    have hcb := isDigit_bounds hc
    have hnc := (not_sep_of_isDigit hc).1
    have h0n : a.toNat ≠ 48 := toNat_ne_of_ne h0
    have h1 : ¬ (a.toNat - 48 > 255) := by omega
    have h2 : ¬ (a.toNat - 48 = 0) := by omega
    have h3 : ¬ ((a.toNat - 48) * 10 + (b.toNat - 48) > 255) := by omega
    have h4 : ¬ (((a.toNat - 48) * 10 + (b.toNat - 48)) * 10 + (c.toNat - 48) > 255) := by omega
    simp [netip.parseIPv4Fields.loop, ha, hb, hc, hdot, h1, h2, h3, h4, hr, hpos, hnc,
      Spec.octetVal]

/-- The last field: the value is stored in the fourth octet. -/
theorem loop_octet_end {f : List Char} (h : Spec.isCanonicalOctet f = true)
    (prev : Option Char) (fields : List Nat) :
    netip.parseIPv4Fields.loop f prev 0 0 3 fields = some (fields.set 3 (Spec.octetVal f)) := by
  match f, h with
  | [a], h =>
    have ha : netip.isDigit a = true := by simpa [Spec.isCanonicalOctet] using h
    have hab := isDigit_bounds ha
    have h1 : ¬ (a.toNat - 48 > 255) := by omega
    simp [netip.parseIPv4Fields.loop, ha, h1, Spec.octetVal]
  | [a, b], h =>
    simp only [Spec.isCanonicalOctet, Bool.and_eq_true, bne_iff_ne, ne_eq] at h
    obtain ⟨⟨ha, hb⟩, h0⟩ := h
    have hab := isDigit_bounds ha
    have hbb := isDigit_bounds hb
    have h0n : a.toNat ≠ 48 := toNat_ne_of_ne h0
    have h1 : ¬ (a.toNat - 48 > 255) := by omega
    have h2 : ¬ (a.toNat - 48 = 0) := by omega
    have h3 : ¬ ((a.toNat - 48) * 10 + (b.toNat - 48) > 255) := by omega
    simp [netip.parseIPv4Fields.loop, ha, hb, h1, h2, h3, Spec.octetVal]
  | [a, b, c], h =>
    simp only [Spec.isCanonicalOctet, Bool.and_eq_true, bne_iff_ne, ne_eq, decide_eq_true_eq] at h
    obtain ⟨⟨⟨⟨ha, hb⟩, hc⟩, h0⟩, hv⟩ := h
    have hab := isDigit_bounds ha
    have hbb := isDigit_bounds hb
    have hcb := isDigit_bounds hc
    have h0n : a.toNat ≠ 48 := toNat_ne_of_ne h0
    have h1 : ¬ (a.toNat - 48 > 255) := by omega
    have h2 : ¬ (a.toNat - 48 = 0) := by omega
    have h3 : ¬ ((a.toNat - 48) * 10 + (b.toNat - 48) > 255) := by omega
    have h4 : ¬ (((a.toNat - 48) * 10 + (b.toNat - 48)) * 10 + (c.toNat - 48) > 255) := by omega
    simp [netip.parseIPv4Fields.loop, ha, hb, hc, h1, h2, h3, h4, Spec.octetVal]

/-- Four fields separated by dots parse to their four values. -/
theorem parseIPv4Fields_dotted {a b c d : List Char} (ha : Spec.isCanonicalOctet a = true)
    (hb : Spec.isCanonicalOctet b = true) (hc : Spec.isCanonicalOctet c = true)
    (hd : Spec.isCanonicalOctet d = true) :
    netip.parseIPv4Fields (a ++ '.' :: (b ++ '.' :: (c ++ '.' :: d))) =
      some [Spec.octetVal a, Spec.octetVal b, Spec.octetVal c, Spec.octetVal d] := by
  unfold netip.parseIPv4Fields
  rw [loop_octet_dot ha _ (by simp) none 0 (by decide),
    loop_octet_dot hb _ (by simp) _ 1 (by decide),
    loop_octet_dot hc _ (octet_ne_nil hd) _ 2 (by decide),
    loop_octet_end hd]
  rfl

/-- The first separator of a field followed by a dot is that dot. -/
theorem firstSeparator_octet_dot {f : List Char} (h : Spec.isCanonicalOctet f = true)
    (r : List Char) : netip.firstSeparator (f ++ '.' :: r) = some '.' := by
  match f, h with
  | [a], h =>
    have ha : netip.isDigit a = true := by simpa [Spec.isCanonicalOctet] using h
    have := not_sep_of_isDigit ha
    simp [netip.firstSeparator, this]
  | [a, b], h =>
    simp only [Spec.isCanonicalOctet, Bool.and_eq_true] at h
    have := not_sep_of_isDigit h.1.1
    have := not_sep_of_isDigit h.1.2
    simp [netip.firstSeparator, *]
  | [a, b, c], h =>
    simp only [Spec.isCanonicalOctet, Bool.and_eq_true] at h
    have := not_sep_of_isDigit h.1.1.1.1
    have := not_sep_of_isDigit h.1.1.1.2
    have := not_sep_of_isDigit h.1.1.2
    simp [netip.firstSeparator, *]

/-- The shape of a string accepted by the spec-side predicate. -/
theorem isCanonicalIPv4Literal_shape {s : String} (h : Spec.isCanonicalIPv4Literal s = true) :
    ∃ a b c d, Spec.isCanonicalOctet a = true ∧ Spec.isCanonicalOctet b = true ∧
      Spec.isCanonicalOctet c = true ∧ Spec.isCanonicalOctet d = true ∧
      s.data = a ++ '.' :: (b ++ '.' :: (c ++ '.' :: d)) := by
  unfold Spec.isCanonicalIPv4Literal at h
  have hs : [ '.' ].intercalate (s.data.splitOn '.') = s.data :=
    List.intercalate_splitOn s.data '.'
  split at h
  · rename_i a b c d heq
    simp only [Bool.and_eq_true] at h
    refine ⟨a, b, c, d, h.1.1.1, h.1.1.2, h.1.2, h.2, ?_⟩
    rw [heq] at hs
    rw [← hs]
    simp [List.intercalate]
  · exact absurd h (by simp)

/-- A valid IPv4 literal parses to the IPv4-mapped sixteen bytes. -/
theorem ParseIP_ipv4Literal {s : String} (h : Spec.isCanonicalIPv4Literal s = true) :
    ∃ v, v.length = 4 ∧ net.ParseIP s = some ([0, 0, 0, 0, 0, 0, 0, 0, 0, 0, 255, 255] ++ v) := by
  obtain ⟨a, b, c, d, ha, hb, hc, hd, hs⟩ := isCanonicalIPv4Literal_shape h
  refine ⟨[Spec.octetVal a, Spec.octetVal b, Spec.octetVal c, Spec.octetVal d], rfl, ?_⟩
  simp [net.ParseIP, netip.ParseAddr, hs, firstSeparator_octet_dot ha, netip.parseIPv4,
    parseIPv4Fields_dotted ha hb hc hd, netip.AddrFrom4]



/-! ## Length of a parsed address -/

theorem loop4_length (s : List Char) (prev : Option Char) (val digLen pos : Nat)
    (fields out : List Nat)
    (h : netip.parseIPv4Fields.loop s prev val digLen pos fields = some out) :
    out.length = fields.length := by
  induction s generalizing prev val digLen pos fields with
  | nil =>
    simp only [netip.parseIPv4Fields.loop] at h
    split at h
    · exact absurd h (by simp)
    · simp only [Option.some.injEq] at h
      rw [← h]; simp
  | cons c rest ih =>
    simp only [netip.parseIPv4Fields.loop] at h
    split at h
    · split at h
      · exact absurd h (by simp)
      · split at h
        · exact absurd h (by simp)
        · exact ih _ _ _ _ _ h
    · split at h
      · split at h
        · exact absurd h (by simp)
        · split at h
          · exact absurd h (by simp)
          · rw [ih _ _ _ _ _ h]; simp
      · exact absurd h (by simp)

theorem parseIPv4Fields_length {s : List Char} {f : List Nat}
    (h : netip.parseIPv4Fields s = some f) : f.length = 4 := by
  have := loop4_length s none 0 0 0 [0, 0, 0, 0] f h
  simpa using this

theorem writeAt_length (ip : List Nat) (i : Nat) (f : List Nat) :
    (netip.writeAt ip i f).length = ip.length := by
  simp [netip.writeAt]

theorem loop6_length (g : Nat) (s : List Char) (ip : List Nat) (e : Option Nat)
    (st : netip.V6State) (h : netip.parseIPv6.loop g s ip e = some st) :
    st.ip.length = ip.length := by
  induction g generalizing s ip e with
  | zero =>
    simp only [netip.parseIPv6.loop, Option.some.injEq] at h
    rw [← h]
  | succ g ih =>
    simp only [netip.parseIPv6.loop] at h
    repeat' split at h
    all_goals first
      | (cases h <;> simp [writeAt_length])
      | (rw [ih _ _ _ h]; simp)

theorem shiftUp_length (n e k : Nat) (ip : List Nat) :
    (netip.shiftUp n e k ip).length = ip.length := by
  induction k generalizing ip with
  | zero => rfl
  | succ k ih => simp [netip.shiftUp, ih]

theorem clearRange_length (e k : Nat) (ip : List Nat) :
    (netip.clearRange e k ip).length = ip.length := by
  induction k generalizing ip with
  | zero => rfl
  | succ k ih => simp [netip.clearRange, ih]

theorem body6_length (s : List Char) (z : String) (a : netip.Addr)
    (h : netip.parseIPv6.body s z = some a) : a.as16.length = 16 := by
  simp only [netip.parseIPv6.body] at h
  split at h
  · cases h; simp
  · split at h
    · cases h
    · rename_i st hst
      have hl := loop6_length _ _ _ _ _ hst
      simp only [List.length_replicate] at hl
      repeat' split at h
      all_goals (cases h <;> simp [clearRange_length, shiftUp_length, hl])

theorem ParseIP_length {s : String} {ip : List Nat} (h : net.ParseIP s = some ip) :
    ip.length = 16 := by
  unfold net.ParseIP at h
  split at h
  · cases h
  · rename_i a ha
    split at h
    · cases h
    · cases h
      unfold netip.ParseAddr at ha
      split at ha
      · cases ha
      · split at ha
        · unfold netip.parseIPv4 at ha
          split at ha
          · cases ha
          · rename_i f hf
            cases ha
            simp [netip.AddrFrom4, parseIPv4Fields_length hf]
        · split at ha
          · unfold netip.parseIPv6 at ha
            split at ha
            · exact body6_length _ _ _ ha
            · split at ha
              · cases ha
              · exact body6_length _ _ _ ha
          · cases ha

/-- A field written without a leading zero is a field in the sense of the
claim. -/
theorem isDecOctet_of_canonical {f : List Char} (h : Spec.isCanonicalOctet f = true) :
    Spec.isDecOctet f = true := by
  have hv := octet_le h
  match f, h with
  | [a], h =>
    have ha : netip.isDigit a = true := by simpa [Spec.isCanonicalOctet] using h
    simp [Spec.isDecOctet, ha, hv]
  | [a, b], h =>
    simp only [Spec.isCanonicalOctet, Bool.and_eq_true] at h
    simp [Spec.isDecOctet, h.1.1, h.1.2, hv]
  | [a, b, c], h =>
    simp only [Spec.isCanonicalOctet, Bool.and_eq_true] at h
    simp [Spec.isDecOctet, h.1.1.1.1, h.1.1.1.2, h.1.1.2, hv]

/-- A literal written without leading zeros is a valid literal in the sense
of the claim. -/
theorem isIPv4Literal_of_canonical {s : String} (h : Spec.isCanonicalIPv4Literal s = true) :
    Spec.isIPv4Literal s = true := by
  unfold Spec.isCanonicalIPv4Literal at h
  unfold Spec.isIPv4Literal
  split at h
  · rename_i a b c d heq
    simp only [Bool.and_eq_true] at h
    simp [isDecOctet_of_canonical h.1.1.1, isDecOctet_of_canonical h.1.1.2,
      isDecOctet_of_canonical h.1.2, isDecOctet_of_canonical h.2]
  · exact absurd h (by simp)

/-! ## Lemmas on the requests -/

theorem listingRequest_some {v : Configuration} {pub : IpAddress} {q : http.Request}
    (h : listingRequest v pub = some q) :
    q.Method = "GET" ∧
      q.Header = [("X-Auth-Email", v.Email),
        (if v.Method = "global" then ("X-Auth-Key", v.Key)
         else ("Authorization", "Bearer " ++ v.Key)),
        ("Content-Type", "application/json")] := by
  unfold listingRequest http.NewRequest at h
  split at h
  · cases h
  · rename_i q0 hq
    split at hq
    · cases hq
      by_cases hg : v.Method = "global" <;>
        (simp only [hg, if_true, if_false, Option.some.injEq] at h; subst h;
         simp [http.Request.Add, hg])
    · cases hq

theorem updateRequest_some {v : Configuration} {pub : IpAddress} {rid : String}
    {q : http.Request} (h : updateRequest v pub rid = some q) :
    q.Method = "PATCH" ∧
      q.URL = "https://api.cloudflare.com/client/v4/zones/" ++ v.ZoneId ++ "/dns_records/" ++ rid ∧
      q.Body = some (json.Marshal ⟨pub.GetRecordType, v.RecordName, pub.RawIp, v.Ttl, v.Proxy⟩) ∧
      q.Header = [("X-Auth-Email", v.Email),
        (if v.Method = "global" then ("X-Auth-Key", v.Key)
         else ("Authorization", "Bearer " ++ v.Key)),
        ("Content-Type", "application/json")] := by
  unfold updateRequest http.NewRequest at h
  split at h
  · cases h
  · rename_i q0 hq
    split at hq
    · cases hq
      by_cases hg : v.Method = "global" <;>
        (simp only [hg, if_true, if_false, Option.some.injEq] at h; subst h;
         simp [http.Request.Add, hg])
    · cases hq

theorem updateRequest_isSome (v : Configuration) (pub : IpAddress) (rid : String)
    (h : url.parseOk
      ("https://api.cloudflare.com/client/v4/zones/" ++ v.ZoneId ++ "/dns_records/" ++ rid)
        = true) :
    ∃ q, updateRequest v pub rid = some q := by
  unfold updateRequest http.NewRequest
  rw [if_pos h]
  exact ⟨_, rfl⟩

/-! ## Lemmas on the loops -/

/-- Records of another type are passed over. -/
theorem reconcileLoop_skip (v : Configuration) (pub : IpAddress) (w : World)
    (pre rest : List StringMap) (run : Run)
    (h : ∀ x ∈ pre, x.index "type" ≠ pub.GetRecordType) :
    reconcileLoop v pub w (pre ++ rest) run = reconcileLoop v pub w rest run := by
  induction pre with
  | nil => rfl
  | cons x pre ih =>
    have hx := h x (List.mem_cons_self _ _)
    simp only [List.cons_append, reconcileLoop, if_neg hx]
    exact ih (fun y hy => h y (List.mem_cons_of_mem _ hy))

/-- A list without a record of the resolved type leaves the run as it is. -/
theorem reconcileLoop_none (v : Configuration) (pub : IpAddress) (w : World)
    (l : List StringMap) (run : Run)
    (h : ∀ x ∈ l, x.index "type" ≠ pub.GetRecordType) :
    reconcileLoop v pub w l run = run := by
  have := reconcileLoop_skip v pub w l [] run h
  simpa [reconcileLoop] using this

/-- The calls of a run only grow, and every call added is an update request. -/
theorem reconcileLoop_calls (v : Configuration) (pub : IpAddress) (w : World)
    (l : List StringMap) (run : Run) :
    ∃ extra, (reconcileLoop v pub w l run).calls = run.calls ++ extra ∧
      ∀ q ∈ extra, ∃ rid, updateRequest v pub rid = some q := by
  induction l generalizing run with
  | nil => exact ⟨[], by simp [reconcileLoop]⟩
  | cons x l ih =>
    simp only [reconcileLoop]
    split
    · split
      · exact ⟨[], by simp⟩
      · split
        · exact ⟨[], by simp⟩
        · rename_i update hu
          have hone : ∀ q ∈ [update], ∃ rid, updateRequest v pub rid = some q := by
            intro q hq
            rw [List.mem_singleton] at hq
            exact ⟨_, hq ▸ hu⟩
          split
          · exact ⟨[update], rfl, hone⟩
          · exact ⟨[update], rfl, hone⟩
          · exact ⟨[update], rfl, hone⟩
          · split
            · obtain ⟨extra, he, hq⟩ := ih
                { run with
                  calls := run.calls ++ [update],
                  logged := run.logged ++ [.updated _] }
              refine ⟨update :: extra, ?_, ?_⟩
              · rw [he]; simp
              · intro q hq2
                rcases List.mem_cons.mp hq2 with rfl | h2
                · exact ⟨_, hu⟩
                · exact hq q h2
            · exact ⟨[update], rfl, hone⟩
    · exact ih run

/-- A map without the key `cloudflare` leaves the run as it is. -/
theorem mainLoop_skip (pub : IpAddress) (w : World) (l : List (String × Configuration))
    (run : Run) (h : ∀ e ∈ l, e.1 ≠ "cloudflare") : mainLoop pub w l run = run := by
  induction l with
  | nil => rfl
  | cons e l ih =>
    obtain ⟨k, v⟩ := e
    have hk : k ≠ "cloudflare" := h (k, v) (List.mem_cons_self _ _)
    simp only [mainLoop, if_neg hk]
    exact ih (fun y hy => h y (List.mem_cons_of_mem _ hy))

theorem mainLoop_lookup (pub : IpAddress) (w : World) (l : List (String × Configuration))
    (run : Run) (v : Configuration) (hl : l.lookup "cloudflare" = some v)
    (hn : (l.map Prod.fst).Nodup) :
    mainLoop pub w l run = cloudflare v pub w run := by
  induction l with
  | nil => simp at hl
  | cons e l ih =>
    obtain ⟨k, v1⟩ := e
    simp only [List.map_cons, List.nodup_cons, List.mem_map, not_exists, not_and] at hn
    by_cases hk : k = "cloudflare"
    · subst hk
      simp only [List.lookup_cons_self, Option.some.injEq] at hl
      subst hl
      have hrest : ∀ e ∈ l, e.1 ≠ "cloudflare" := fun e he heq => hn.1 e he heq
      simp only [mainLoop, if_true]
      split
      · exact mainLoop_skip pub w l _ hrest
      · rfl
    · have hb : ("cloudflare" == k) = false := by
        simpa using fun h => hk h.symm
      rw [List.lookup_cons, hb] at hl
      simp only [mainLoop, if_neg hk]
      exact ih hl hn.2

/-- With the profile `v` under the key `cloudflare`, `main` is the
reconciliation of `v` from the initial run. -/
theorem main_eq (config : ConfigMap) (v : Configuration) (pub : IpAddress) (w : World)
    (hv : config.get "cloudflare" = some v) :
    main config pub w = cloudflare v pub w ⟨[], [], .running⟩ :=
  mainLoop_lookup pub w config.entries _ v hv config.nodup

/-- After a successful listing, `main` is the record-not-found exit on an
empty list and the loop over the records otherwise. -/
theorem main_listing (config : ConfigMap) (v : Configuration) (pub : IpAddress) (w : World)
    (record : Cloudflare) (hv : config.get "cloudflare" = some v)
    (hl : Listing v pub w record) (hs : record.Success = true) :
    ∃ verify, listingRequest v pub = some verify ∧ verify.Method = "GET" ∧
      main config pub w =
        if record.Result.length = 0 then
          ⟨[verify], [], .fatal (.recordNotFound pub.RawIp v.ZoneId)⟩
        else reconcileLoop v pub w record.Result ⟨[verify], [], .running⟩ := by
  unfold Listing listingDecodes at hl
  split at hl
  · cases hl
  · rename_i verify hq
    have hw : w 0 verify = .decoded record := of_decide_eq_true hl
    refine ⟨verify, hq, (listingRequest_some hq).1, ?_⟩
    rw [main_eq config v pub w hv]
    simp [cloudflare, hq, hw, hs]

/-- A list whose records of type `t` are exactly `r`. -/
theorem single_of_filter {l : List StringMap} {t : String} {r : StringMap}
    (h : l.filter (fun x => decide (x.index "type" = t)) = [r]) :
    ∃ pre post, l = pre ++ r :: post ∧ (∀ x ∈ pre, x.index "type" ≠ t) ∧
      r.index "type" = t ∧ (∀ x ∈ post, x.index "type" ≠ t) := by
  obtain ⟨pre, post, hl, hpre, hr, hpost⟩ := List.filter_eq_cons_iff.mp h
  refine ⟨pre, post, hl, ?_, by simpa using hr, ?_⟩
  · intro x hx; simpa using hpre x hx
  · intro x hx
    have := List.filter_eq_nil_iff.mp hpost x hx
    simpa using this

/-- The first record of the resolved type holds the resolved address:
the loop ends the process with `os.Exit(0)`. -/
theorem reconcileLoop_equal (v : Configuration) (pub : IpAddress) (w : World)
    (r : StringMap) (post : List StringMap) (run : Run)
    (hr : r.index "type" = pub.GetRecordType) (hc : r.index "content" = pub.RawIp) :
    (reconcileLoop v pub w (r :: post) run).calls = run.calls ∧
      (reconcileLoop v pub w (r :: post) run).status = .exit0 := by
  simp [reconcileLoop, hr, hc]

/-- The first record of the resolved type holds another address: its PATCH
is the next call. -/
theorem reconcileLoop_first (v : Configuration) (pub : IpAddress) (w : World)
    (r : StringMap) (post : List StringMap) (run : Run) (update : http.Request)
    (hr : r.index "type" = pub.GetRecordType) (hc : r.index "content" ≠ pub.RawIp)
    (hu : updateRequest v pub (r.index "id") = some update) :
    ∃ extra, (reconcileLoop v pub w (r :: post) run).calls = run.calls ++ update :: extra ∧
      ∀ q ∈ extra, ∃ rid, updateRequest v pub rid = some q := by
  simp only [reconcileLoop, if_pos hr, if_neg hc, hu]
  split
  · exact ⟨[], rfl, by simp⟩
  · exact ⟨[], rfl, by simp⟩
  · exact ⟨[], rfl, by simp⟩
  · split
    · obtain ⟨extra, he, hq⟩ := reconcileLoop_calls v pub w post
        { run with calls := run.calls ++ [update], logged := run.logged ++ [.updated _] }
      exact ⟨extra, by rw [he]; simp, hq⟩
    · exact ⟨[], rfl, by simp⟩

/-- The only record of the resolved type among those left holds another
address: its PATCH is the one call added, and the run goes on exactly when
the provider reports the PATCH successful. -/
theorem reconcileLoop_single (v : Configuration) (pub : IpAddress) (w : World)
    (r : StringMap) (post : List StringMap) (run : Run) (update : http.Request)
    (hr : r.index "type" = pub.GetRecordType) (hc : r.index "content" ≠ pub.RawIp)
    (hu : updateRequest v pub (r.index "id") = some update)
    (hpost : ∀ x ∈ post, x.index "type" ≠ pub.GetRecordType) :
    (reconcileLoop v pub w (r :: post) run).calls = run.calls ++ [update] ∧
      ∀ res, w run.calls.length update = .decoded res → res.Success = true →
        (reconcileLoop v pub w (r :: post) run).status = run.status := by
  simp only [reconcileLoop, if_pos hr, if_neg hc, hu]
  split
  · rename_i h; exact ⟨rfl, fun res hres => by rw [h] at hres; cases hres⟩
  · rename_i h; exact ⟨rfl, fun res hres => by rw [h] at hres; cases hres⟩
  · rename_i h; exact ⟨rfl, fun res hres => by rw [h] at hres; cases hres⟩
  · rename_i res0 h
    split
    · rw [reconcileLoop_none v pub w post _ hpost]
      exact ⟨rfl, fun _ _ _ => rfl⟩
    · rename_i hs
      refine ⟨rfl, fun res hres hsucc => ?_⟩
      rw [h] at hres
      cases hres
      exact absurd hsucc hs

/-- Every call of `main` is the listing request or an update request. -/
theorem main_calls (config : ConfigMap) (v : Configuration) (pub : IpAddress) (w : World)
    (hv : config.get "cloudflare" = some v) (q : http.Request)
    (hq : q ∈ (main config pub w).calls) :
    listingRequest v pub = some q ∨ ∃ rid, updateRequest v pub rid = some q := by
  rw [main_eq config v pub w hv] at hq
  unfold cloudflare at hq
  split at hq
  · simp at hq
  · rename_i verify hverify
    have hone : ∀ q ∈ ([] : List http.Request) ++ [verify], listingRequest v pub = some q := by
      intro q hq; simp at hq; exact hq ▸ hverify
    split at hq
    · exact Or.inl (hone q hq)
    · exact Or.inl (hone q hq)
    · exact Or.inl (hone q hq)
    · split at hq
      · exact Or.inl (hone q hq)
      · split at hq
        · exact Or.inl (hone q hq)
        · obtain ⟨extra, he, hx⟩ := reconcileLoop_calls v pub w _
            { (⟨[], [], .running⟩ : Run) with calls := [] ++ [verify] }
          rw [he] at hq
          rcases List.mem_append.mp hq with h1 | h2
          · exact Or.inl (hone q h1)
          · exact Or.inr (hx q h2)

/-- The PATCH requests of a run that made the listing call and then the
given update calls. -/
theorem patches_of_calls (run : Run) (verify : http.Request) (extra : List http.Request)
    (v : Configuration) (pub : IpAddress) (hc : run.calls = verify :: extra)
    (hv : verify.Method = "GET")
    (he : ∀ q ∈ extra, ∃ rid, updateRequest v pub rid = some q) :
    run.patches = extra := by
  unfold Run.patches
  rw [hc, List.filter_cons]
  simp only [hv]
  rw [if_neg (by decide)]
  apply List.filter_eq_self.mpr
  intro q hq
  obtain ⟨rid, hr⟩ := he q hq
  simp [(updateRequest_some hr).1]

/-! ## Address classification -/

/-- C5 as stated fails: `01.2.3.4` and `192.168.001.001` are dotted-decimal
with four fields each in 0..255, the parser rejects their leading zeros,
and the record type is "", not "A". -/
theorem getRecordType_leading_zero_literal :
    (Spec.isIPv4Literal "01.2.3.4" = true ∧ net.ParseIP "01.2.3.4" = none ∧
      (IpAddress.mk "01.2.3.4").GetRecordType = "" ∧
      (IpAddress.mk "01.2.3.4").GetRecordType ≠ "A") ∧
    (Spec.isIPv4Literal "192.168.001.001" = true ∧
      (IpAddress.mk "192.168.001.001").GetRecordType = "" ∧
      (IpAddress.mk "192.168.001.001").GetRecordType ≠ "A") := by
  decide

/-- C5, amended: for every valid textual IPv4 literal (dotted-decimal, four
fields each in 0..255) whose fields are written without a leading zero,
`GetRecordType` on the raw string returns "A". -/
theorem getRecordType_ipv4_literal (s : String) (h : Spec.isCanonicalIPv4Literal s = true) :
    Spec.isIPv4Literal s = true ∧ (IpAddress.mk s).GetRecordType = "A" := by
  refine ⟨isIPv4Literal_of_canonical h, ?_⟩
  obtain ⟨v, hv, hp⟩ := ParseIP_ipv4Literal h
  simp [IpAddress.GetRecordType, IpAddress.IsIPv4, IpAddress.Parse, hp, net.To4, hv,
    net.isV4Mapped]

/-- C5, amended, at the literal `203.0.113.7`. -/
theorem getRecordType_ipv4_literal_witness :
    Spec.isCanonicalIPv4Literal "203.0.113.7" = true ∧
      Spec.isIPv4Literal "203.0.113.7" = true ∧
      (IpAddress.mk "203.0.113.7").GetRecordType = "A" :=
  ⟨by decide, getRecordType_ipv4_literal "203.0.113.7" (by decide)⟩

/-- C6 as stated fails: `::ffff:203.0.113.7` is a colon form ending in an
embedded dotted quad that the parser accepts, and its record type is "A",
not "AAAA". -/
theorem getRecordType_ipv4_mapped_literal :
    Spec.isIPv6Literal "::ffff:203.0.113.7" = true ∧
      (IpAddress.mk "::ffff:203.0.113.7").GetRecordType = "A" ∧
      (IpAddress.mk "::ffff:203.0.113.7").GetRecordType ≠ "AAAA" := by
  decide

/-- C6, amended: for every valid textual IPv6 literal the parser yields
sixteen bytes, and `GetRecordType` returns "AAAA" when these are not an
IPv4-mapped address (ten zero bytes, then ff ff) and "A" when they are. -/
theorem getRecordType_ipv6_literal (s : String) (h : Spec.isIPv6Literal s = true) :
    ∃ ip, net.ParseIP s = some ip ∧ ip.length = 16 ∧
      (net.isV4Mapped ip = false → (IpAddress.mk s).GetRecordType = "AAAA") ∧
      (net.isV4Mapped ip = true → (IpAddress.mk s).GetRecordType = "A") := by
  simp only [Spec.isIPv6Literal, Bool.and_eq_true, Option.isSome_iff_exists] at h
  obtain ⟨ip, hp⟩ := h.2
  have hl := ParseIP_length hp
  refine ⟨ip, hp, hl, ?_, ?_⟩
  · intro hm
    simp [IpAddress.GetRecordType, IpAddress.IsIPv4, IpAddress.IsIPv6, IpAddress.Parse, hp,
      net.To4, hl, hm]
  · intro hm
    simp [IpAddress.GetRecordType, IpAddress.IsIPv4, IpAddress.Parse, hp, net.To4, hl, hm]

/-- C6, amended, at the literal `2001:db8::1`. -/
theorem getRecordType_ipv6_literal_witness :
    Spec.isIPv6Literal "2001:db8::1" = true ∧
      (IpAddress.mk "2001:db8::1").GetRecordType = "AAAA" := by
  refine ⟨by decide, ?_⟩
  obtain ⟨ip, hp, _, h6, _⟩ := getRecordType_ipv6_literal "2001:db8::1" (by decide)
  have e : ip = [32, 1, 13, 184, 0, 0, 0, 0, 0, 0, 0, 0, 0, 0, 0, 1] := by
    have : net.ParseIP "2001:db8::1" = some [32, 1, 13, 184, 0, 0, 0, 0, 0, 0, 0, 0, 0, 0, 0, 1] := by
      decide
    rw [this] at hp
    exact (Option.some.inj hp).symm
  exact h6 (by rw [e]; decide)

/-- C7: a string that does not parse as an IP address, such as the empty
string and `not-an-ip`, is neither IPv4 nor IPv6 and has the empty record
type; and on every input `GetRecordType` returns "A", "AAAA" or "". -/
theorem getRecordType_unparseable :
    (net.ParseIP "" = none ∧ net.ParseIP "not-an-ip" = none) ∧
      ∀ s : String,
        (net.ParseIP s = none →
          (IpAddress.mk s).IsIPv4 = false ∧ (IpAddress.mk s).IsIPv6 = false ∧
            (IpAddress.mk s).GetRecordType = "") ∧
        ((IpAddress.mk s).GetRecordType = "A" ∨ (IpAddress.mk s).GetRecordType = "AAAA" ∨
          (IpAddress.mk s).GetRecordType = "") := by
  refine ⟨by decide, fun s => ⟨fun h => ?_, ?_⟩⟩
  · simp [IpAddress.GetRecordType, IpAddress.IsIPv4, IpAddress.IsIPv6, IpAddress.Parse, h]
  · unfold IpAddress.GetRecordType
    split
    · exact Or.inl rfl
    · split
      · exact Or.inr (Or.inl rfl)
      · exact Or.inr (Or.inr rfl)

/-- C7 at the string `not-an-ip`. -/
theorem getRecordType_unparseable_witness :
    net.ParseIP "not-an-ip" = none ∧ (IpAddress.mk "not-an-ip").GetRecordType = "" :=
  ⟨by decide, ((getRecordType_unparseable.2 "not-an-ip").1 (by decide)).2.2⟩

/-! ## Reconciliation -/

/-- C1 as stated fails: with the record id `%zz` the PATCH URL carries a
malformed percent escape, `http.NewRequest` returns an error, and the run
ends on the fatal path of line 176 without any PATCH call. -/
theorem stale_record_bad_id_no_patch :
    Example.address.GetRecordType = "A" ∧
      Listing Example.profile Example.address
        (Example.provider [Example.record "%zz" "A" "203.0.113.5"])
        (Example.envelope [Example.record "%zz" "A" "203.0.113.5"]) ∧
      [Example.record "%zz" "A" "203.0.113.5"].filter
          (fun x => decide (x.index "type" = Example.address.GetRecordType))
        = [Example.record "%zz" "A" "203.0.113.5"] ∧
      (Example.record "%zz" "A" "203.0.113.5").index "content" ≠ Example.address.RawIp ∧
      (main Example.config Example.address
        (Example.provider [Example.record "%zz" "A" "203.0.113.5"])).patches = [] ∧
      (main Example.config Example.address
        (Example.provider [Example.record "%zz" "A" "203.0.113.5"])).status
        = .fatal .constructRequest := by
  refine ⟨by decide, (by decide), by decide, by decide, by decide,
    by decide⟩

/-- C1, amended: for every profile, resolved address and successful listing
response holding exactly one record of the resolved type, with a content
other than the raw resolved address, for whose id `http.NewRequest`
accepts the PATCH URL, exactly one PATCH call is issued; its URL is
`.../zones/{zone_id}/dns_records/{id}` and its body is the JSON of type,
name `record_name`, content the raw address, ttl `time_to_live`, proxied
`proxy`. -/
theorem one_patch_for_stale_record (config : ConfigMap) (v : Configuration) (pub : IpAddress)
    (w : World) (record : Cloudflare) (r : StringMap)
    (hv : config.get "cloudflare" = some v)
    (hl : Listing v pub w record) (hs : record.Success = true)
    (h1 : record.Result.filter (fun x => decide (x.index "type" = pub.GetRecordType)) = [r])
    (hc : r.index "content" ≠ pub.RawIp)
    (hu : url.parseOk
      ("https://api.cloudflare.com/client/v4/zones/" ++ v.ZoneId ++ "/dns_records/"
        ++ r.index "id") = true) :
    ∃ update, (main config pub w).patches = [update] ∧
      update.Method = "PATCH" ∧
      update.URL = "https://api.cloudflare.com/client/v4/zones/" ++ v.ZoneId
        ++ "/dns_records/" ++ r.index "id" ∧
      update.Body = some (json.Marshal
        ⟨pub.GetRecordType, v.RecordName, pub.RawIp, v.Ttl, v.Proxy⟩) := by
  obtain ⟨pre, post, hres, hpre, hr, hpost⟩ := single_of_filter h1
  obtain ⟨verify, _, hm, e⟩ := main_listing config v pub w record hv hl hs
  obtain ⟨update, hupd⟩ := updateRequest_isSome v pub _ hu
  have hne : ¬ record.Result.length = 0 := by rw [hres]; simp
  rw [if_neg hne, hres, reconcileLoop_skip v pub w pre _ _ hpre] at e
  have hcalls := (reconcileLoop_single v pub w r post ⟨[verify], [], .running⟩ update hr hc
    hupd hpost).1
  rw [← e] at hcalls
  have hp := patches_of_calls (main config pub w) verify [update] v pub hcalls hm
    (by intro q hq; rw [List.mem_singleton] at hq; exact ⟨_, hq ▸ hupd⟩)
  have hf := updateRequest_some hupd
  exact ⟨update, hp, hf.1, hf.2.1, hf.2.2.1⟩

/-- C1, amended, at the example scenario: zone `Z1`, name
`home.example.com`, ttl `120`, proxy off, address `203.0.113.7`, one A
record holding `203.0.113.5`. -/
theorem one_patch_for_stale_record_witness :
    ∃ update,
      (main Example.config Example.address
        (Example.provider [Example.record "r1" "A" "203.0.113.5"])).patches = [update] ∧
      update.Method = "PATCH" ∧
      update.URL = "https://api.cloudflare.com/client/v4/zones/Z1/dns_records/r1" ∧
      update.Body = some ("\x7b\"type\":\"A\",\"name\":\"home.example.com\","
        ++ "\"content\":\"203.0.113.7\",\"ttl\":\"120\",\"proxied\":false\x7d") :=
  one_patch_for_stale_record Example.config Example.profile Example.address
    (Example.provider [Example.record "r1" "A" "203.0.113.5"])
    (Example.envelope [Example.record "r1" "A" "203.0.113.5"])
    (Example.record "r1" "A" "203.0.113.5") rfl (by decide) rfl
    (by decide) (by decide) (by decide)

/-- C2: for every profile, resolved address and successful listing response
holding exactly one record of the resolved type, whose content equals the
raw resolved address, no PATCH call is issued and the process ends with
exit code 0. -/
theorem no_patch_when_content_equal (config : ConfigMap) (v : Configuration) (pub : IpAddress)
    (w : World) (record : Cloudflare) (r : StringMap)
    (hv : config.get "cloudflare" = some v)
    (hl : Listing v pub w record) (hs : record.Success = true)
    (h1 : record.Result.filter (fun x => decide (x.index "type" = pub.GetRecordType)) = [r])
    (hc : r.index "content" = pub.RawIp) :
    (main config pub w).patches = [] ∧ (main config pub w).status = .exit0 ∧
      (main config pub w).exitCode = 0 := by
  obtain ⟨pre, post, hres, hpre, hr, _⟩ := single_of_filter h1
  obtain ⟨verify, _, hm, e⟩ := main_listing config v pub w record hv hl hs
  have hne : ¬ record.Result.length = 0 := by rw [hres]; simp
  rw [if_neg hne, hres, reconcileLoop_skip v pub w pre _ _ hpre] at e
  obtain ⟨hcalls, hstat⟩ := reconcileLoop_equal v pub w r post ⟨[verify], [], .running⟩ hr hc
  rw [← e] at hcalls hstat
  refine ⟨patches_of_calls _ verify [] v pub hcalls hm (by simp), hstat, ?_⟩
  simp [Run.exitCode, hstat]

/-- C2 at the example scenario with the record already holding the address. -/
theorem no_patch_when_content_equal_witness :
    (main Example.config Example.address
      (Example.provider [Example.record "r1" "A" "203.0.113.7"])).patches = [] ∧
    (main Example.config Example.address
      (Example.provider [Example.record "r1" "A" "203.0.113.7"])).status = .exit0 ∧
    (main Example.config Example.address
      (Example.provider [Example.record "r1" "A" "203.0.113.7"])).exitCode = 0 :=
  no_patch_when_content_equal Example.config Example.profile Example.address
    (Example.provider [Example.record "r1" "A" "203.0.113.7"])
    (Example.envelope [Example.record "r1" "A" "203.0.113.7"])
    (Example.record "r1" "A" "203.0.113.7") rfl (by decide) rfl
    (by decide) (by decide)

/-- C3: for every profile and resolved address, a listing response decoded
with success and an empty result list ends the run on the fatal
"record not found, it needs to be created" path, with a non-zero exit code
and no PATCH call. -/
theorem empty_result_is_fatal (config : ConfigMap) (v : Configuration) (pub : IpAddress)
    (w : World) (record : Cloudflare)
    (hv : config.get "cloudflare" = some v)
    (hl : Listing v pub w record) (hs : record.Success = true)
    (he : record.Result = []) :
    (main config pub w).status = .fatal (.recordNotFound pub.RawIp v.ZoneId) ∧
      (main config pub w).exitCode ≠ 0 ∧ (main config pub w).patches = [] := by
  obtain ⟨verify, _, hm, e⟩ := main_listing config v pub w record hv hl hs
  rw [he] at e
  rw [e]
  simp [Run.exitCode, Run.patches, hm]

/-- C3 at the example scenario with an empty listing. -/
theorem empty_result_is_fatal_witness :
    (main Example.config Example.address (Example.provider [])).status
        = .fatal (.recordNotFound "203.0.113.7" "Z1") ∧
      (main Example.config Example.address (Example.provider [])).exitCode ≠ 0 ∧
      (main Example.config Example.address (Example.provider [])).patches = [] :=
  empty_result_is_fatal Example.config Example.profile Example.address (Example.provider [])
    (Example.envelope []) rfl (by decide) rfl rfl

/-- C4: every provider request of a run is the GET listing request or a
PATCH request; under the method `global` it carries `X-Auth-Email` with
the email and `X-Auth-Key` with the key and no `Authorization` header,
and under every other method it carries `Authorization: Bearer` followed
by the key and no `X-Auth-Key` header. -/
theorem auth_headers (config : ConfigMap) (v : Configuration) (pub : IpAddress) (w : World)
    (hv : config.get "cloudflare" = some v) (q : http.Request)
    (hq : q ∈ (main config pub w).calls) :
    (q.Method = "GET" ∨ q.Method = "PATCH") ∧
      (v.Method = "global" →
        ("X-Auth-Email", v.Email) ∈ q.Header ∧ ("X-Auth-Key", v.Key) ∈ q.Header ∧
          ∀ x, ("Authorization", x) ∉ q.Header) ∧
      (v.Method ≠ "global" →
        ("Authorization", "Bearer " ++ v.Key) ∈ q.Header ∧
          ∀ x, ("X-Auth-Key", x) ∉ q.Header) := by
  have hh : (q.Method = "GET" ∨ q.Method = "PATCH") ∧
      q.Header = [("X-Auth-Email", v.Email),
        (if v.Method = "global" then ("X-Auth-Key", v.Key)
         else ("Authorization", "Bearer " ++ v.Key)),
        ("Content-Type", "application/json")] := by
    rcases main_calls config v pub w hv q hq with h | ⟨rid, h⟩
    · exact ⟨Or.inl (listingRequest_some h).1, (listingRequest_some h).2⟩
    · exact ⟨Or.inr (updateRequest_some h).1, (updateRequest_some h).2.2.2⟩
  refine ⟨hh.1, fun hg => ?_, fun hg => ?_⟩
  · rw [hh.2, if_pos hg]
    refine ⟨by simp, by simp, fun x hx => ?_⟩
    simp at hx
  · rw [hh.2, if_neg hg]
    refine ⟨by simp, fun x hx => ?_⟩
    simp at hx

/-- C4 at the example scenario (method `token`, key `abc`): the PATCH
request carries `Authorization: Bearer abc` and no `X-Auth-Key`. -/
theorem auth_headers_witness :
    Example.patch "r1" ∈ (main Example.config Example.address
        (Example.provider [Example.record "r1" "A" "203.0.113.5"])).calls ∧
      ("Authorization", "Bearer abc") ∈ (Example.patch "r1").Header ∧
      ∀ x, ("X-Auth-Key", x) ∉ (Example.patch "r1").Header :=
  ⟨by decide,
    (auth_headers Example.config Example.profile Example.address
      (Example.provider [Example.record "r1" "A" "203.0.113.5"]) rfl (Example.patch "r1")
      (by decide)).2.2 (by decide)⟩

/-- C8 as stated fails. With two A records that both hold another address
and a provider that reports each PATCH successful, the loop goes on after
the first PATCH and issues a second one, for the later record. With one
such record and a provider that rejects the PATCH, the run ends on the
fatal path with exit code 1, not successfully. -/
theorem later_record_patched_and_rejection_fatal :
    (Listing Example.profile Example.address
        (Example.provider
          [Example.record "r1" "A" "203.0.113.5", Example.record "r2" "A" "203.0.113.6"])
        (Example.envelope
          [Example.record "r1" "A" "203.0.113.5", Example.record "r2" "A" "203.0.113.6"]) ∧
      (Example.record "r1" "A" "203.0.113.5").index "type" = Example.address.GetRecordType ∧
      (main Example.config Example.address
        (Example.provider
          [Example.record "r1" "A" "203.0.113.5", Example.record "r2" "A" "203.0.113.6"])).patches
        = [Example.patch "r1", Example.patch "r2"]) ∧
    (Listing Example.profile Example.address
        (Example.rejecting [Example.record "r1" "A" "203.0.113.5"])
        (Example.envelope [Example.record "r1" "A" "203.0.113.5"]) ∧
      (main Example.config Example.address
        (Example.rejecting [Example.record "r1" "A" "203.0.113.5"])).status
        = .fatal (.updateFailed ["denied"] []) ∧
      (main Example.config Example.address
        (Example.rejecting [Example.record "r1" "A" "203.0.113.5"])).exitCode = 1) := by
  refine ⟨⟨by decide, by decide, by decide⟩, by decide, by decide, by decide⟩

/-- C8, amended: for every profile, resolved address and successful listing
response holding a record of the resolved type, the first such record `r`
decides the first action. When `r` holds the raw resolved address, no PATCH
is issued and the process ends with exit code 0, whatever follows `r`.
When `r` holds another content and `http.NewRequest` accepts its PATCH URL,
the first PATCH issued is the one for `r`; if no later record is of the
resolved type it is the only PATCH, and the process ends with exit code 0
when the provider reports it successful. -/
theorem first_record_of_type (config : ConfigMap) (v : Configuration) (pub : IpAddress)
    (w : World) (record : Cloudflare) (pre post : List StringMap) (r : StringMap)
    (hv : config.get "cloudflare" = some v)
    (hl : Listing v pub w record) (hs : record.Success = true)
    (hres : record.Result = pre ++ r :: post)
    (hpre : ∀ x ∈ pre, x.index "type" ≠ pub.GetRecordType)
    (hr : r.index "type" = pub.GetRecordType) :
    (r.index "content" = pub.RawIp →
      (main config pub w).patches = [] ∧ (main config pub w).status = .exit0 ∧
        (main config pub w).exitCode = 0) ∧
    (r.index "content" ≠ pub.RawIp →
      url.parseOk ("https://api.cloudflare.com/client/v4/zones/" ++ v.ZoneId
        ++ "/dns_records/" ++ r.index "id") = true →
      ∃ update, updateRequest v pub (r.index "id") = some update ∧
        update.URL = "https://api.cloudflare.com/client/v4/zones/" ++ v.ZoneId
          ++ "/dns_records/" ++ r.index "id" ∧
        (∃ more, (main config pub w).patches = update :: more) ∧
        ((∀ x ∈ post, x.index "type" ≠ pub.GetRecordType) →
          (main config pub w).patches = [update] ∧
            ∀ res, w 1 update = .decoded res → res.Success = true →
              (main config pub w).status = .running ∧ (main config pub w).exitCode = 0)) := by
  obtain ⟨verify, _, hm, e⟩ := main_listing config v pub w record hv hl hs
  have hne : ¬ record.Result.length = 0 := by rw [hres]; simp
  rw [if_neg hne, hres, reconcileLoop_skip v pub w pre _ _ hpre] at e
  refine ⟨fun hc => ?_, fun hc hu => ?_⟩
  · obtain ⟨hcalls, hstat⟩ :=
      reconcileLoop_equal v pub w r post ⟨[verify], [], .running⟩ hr hc
    rw [← e] at hcalls hstat
    refine ⟨patches_of_calls _ verify [] v pub hcalls hm (by simp), hstat, ?_⟩
    simp [Run.exitCode, hstat]
  · obtain ⟨update, hupd⟩ := updateRequest_isSome v pub _ hu
    refine ⟨update, hupd, (updateRequest_some hupd).2.1, ?_, fun hpost => ?_⟩
    · obtain ⟨extra, hcalls, hx⟩ :=
        reconcileLoop_first v pub w r post ⟨[verify], [], .running⟩ update hr hc hupd
      rw [← e] at hcalls
      refine ⟨extra, patches_of_calls _ verify (update :: extra) v pub hcalls hm ?_⟩
      intro q hq
      rcases List.mem_cons.mp hq with rfl | h2
      · exact ⟨_, hupd⟩
      · exact hx q h2
    · obtain ⟨hcalls, hstat⟩ :=
        reconcileLoop_single v pub w r post ⟨[verify], [], .running⟩ update hr hc hupd hpost
      rw [← e] at hcalls hstat
      refine ⟨patches_of_calls _ verify [update] v pub hcalls hm ?_, fun res hres hsucc => ?_⟩
      · intro q hq
        rw [List.mem_singleton] at hq
        exact ⟨_, hq ▸ hupd⟩
      · have := hstat res hres hsucc
        exact ⟨this, by simp [Run.exitCode, this]⟩

/-- C8, amended, at two listings: one whose first A record already holds
the address and is followed by an A record that does not (no PATCH, exit 0),
and one whose only A record holds another address (one PATCH, exit 0). -/
theorem first_record_of_type_witness :
    ((main Example.config Example.address
        (Example.provider
          [Example.record "r0" "AAAA" "2001:db8::1", Example.record "r1" "A" "203.0.113.7",
            Example.record "r2" "A" "203.0.113.6"])).patches = [] ∧
      (main Example.config Example.address
        (Example.provider
          [Example.record "r0" "AAAA" "2001:db8::1", Example.record "r1" "A" "203.0.113.7",
            Example.record "r2" "A" "203.0.113.6"])).status = .exit0 ∧
      (main Example.config Example.address
        (Example.provider
          [Example.record "r0" "AAAA" "2001:db8::1", Example.record "r1" "A" "203.0.113.7",
            Example.record "r2" "A" "203.0.113.6"])).exitCode = 0) ∧
    ((main Example.config Example.address
        (Example.provider
          [Example.record "r0" "AAAA" "2001:db8::1", Example.record "r1" "A" "203.0.113.5"])).patches
        = [Example.patch "r1"] ∧
      (main Example.config Example.address
        (Example.provider
          [Example.record "r0" "AAAA" "2001:db8::1", Example.record "r1" "A" "203.0.113.5"])).exitCode
        = 0) := by
  refine ⟨(first_record_of_type Example.config Example.profile Example.address
    (Example.provider
      [Example.record "r0" "AAAA" "2001:db8::1", Example.record "r1" "A" "203.0.113.7",
        Example.record "r2" "A" "203.0.113.6"])
    (Example.envelope
      [Example.record "r0" "AAAA" "2001:db8::1", Example.record "r1" "A" "203.0.113.7",
        Example.record "r2" "A" "203.0.113.6"])
    [Example.record "r0" "AAAA" "2001:db8::1"] [Example.record "r2" "A" "203.0.113.6"]
    (Example.record "r1" "A" "203.0.113.7") rfl (by decide) rfl rfl
    (by decide) (by decide)).1 (by decide), ?_⟩
  obtain ⟨update, hu, _, _, h⟩ :=
    (first_record_of_type Example.config Example.profile Example.address
      (Example.provider
        [Example.record "r0" "AAAA" "2001:db8::1", Example.record "r1" "A" "203.0.113.5"])
      (Example.envelope
        [Example.record "r0" "AAAA" "2001:db8::1", Example.record "r1" "A" "203.0.113.5"])
      [Example.record "r0" "AAAA" "2001:db8::1"] [] (Example.record "r1" "A" "203.0.113.5")
      rfl (by decide) rfl rfl (by decide) (by decide)).2 (by decide) (by decide)
  have e : update = Example.patch "r1" := by
    have h1 : updateRequest Example.profile Example.address
        ((Example.record "r1" "A" "203.0.113.5").index "id") = some (Example.patch "r1") := by
      decide
    rw [h1] at hu
    exact (Option.some.inj hu).symm
  subst e
  obtain ⟨hp, hs⟩ := h (by simp)
  exact ⟨hp, (hs (Example.envelope []) rfl rfl).2⟩

/-- C9 as stated fails. With the unparseable address `not-an-ip` and a
successful listing that holds an A record, no record matches and the run
reaches the end of `main` with exit code 0, not on the fatal path. With a
listing that holds a record without a "type", that record matches the empty
record type and a PATCH call is issued for it. -/
theorem unparseable_ip_listing_not_fatal :
    net.ParseIP "not-an-ip" = none ∧
      (IpAddress.mk "not-an-ip").GetRecordType = "" ∧
      (Listing Example.profile ⟨"not-an-ip"⟩
          (Example.provider [Example.record "r1" "A" "203.0.113.5"])
          (Example.envelope [Example.record "r1" "A" "203.0.113.5"]) ∧
        (main Example.config ⟨"not-an-ip"⟩
          (Example.provider [Example.record "r1" "A" "203.0.113.5"])).status = .running ∧
        (main Example.config ⟨"not-an-ip"⟩
          (Example.provider [Example.record "r1" "A" "203.0.113.5"])).exitCode = 0) ∧
      (Listing Example.profile ⟨"not-an-ip"⟩
          (Example.provider [[("id", "r1"), ("content", "203.0.113.5")]])
          (Example.envelope [[("id", "r1"), ("content", "203.0.113.5")]]) ∧
        ((main Example.config ⟨"not-an-ip"⟩
          (Example.provider [[("id", "r1"), ("content", "203.0.113.5")]])).patches.map
            (fun q => q.URL))
          = ["https://api.cloudflare.com/client/v4/zones/Z1/dns_records/r1"]) := by
  refine ⟨by decide, by decide, ⟨by decide, by decide, by decide⟩, by decide, by decide⟩

/-- C9, amended: for every profile, every resolved address string that does
not parse as an IP address and every successful listing response, the
record type is empty; an empty result list ends the run on the fatal
"record not found" path with no PATCH call; a non-empty result list none
of whose records has an empty or absent type is matched by no record, no
PATCH call is issued, and the process ends with exit code 0. -/
theorem unparseable_ip_reconciliation (config : ConfigMap) (v : Configuration)
    (pub : IpAddress) (w : World) (record : Cloudflare)
    (hv : config.get "cloudflare" = some v)
    (hp : net.ParseIP pub.RawIp = none)
    (hl : Listing v pub w record) (hs : record.Success = true) :
    pub.GetRecordType = "" ∧
    (record.Result = [] →
      (main config pub w).patches = [] ∧
        (main config pub w).status = .fatal (.recordNotFound pub.RawIp v.ZoneId)) ∧
    (record.Result ≠ [] → (∀ x ∈ record.Result, x.index "type" ≠ "") →
      (main config pub w).patches = [] ∧ (main config pub w).status = .running ∧
        (main config pub w).exitCode = 0) := by
  have ht : pub.GetRecordType = "" := by
    simp [IpAddress.GetRecordType, IpAddress.IsIPv4, IpAddress.IsIPv6, IpAddress.Parse, hp]
  obtain ⟨verify, _, hm, e⟩ := main_listing config v pub w record hv hl hs
  refine ⟨ht, fun he => ?_, fun hne hall => ?_⟩
  · rw [he] at e
    rw [e]
    simp [Run.patches, hm]
  · have hlen : ¬ record.Result.length = 0 := by
      simpa [List.length_eq_zero] using hne
    rw [if_neg hlen, reconcileLoop_none v pub w _ _ (by rw [ht]; exact hall)] at e
    rw [e]
    simp [Run.patches, Run.exitCode, hm]

/-- C9, amended, at the address `not-an-ip` with an empty listing. -/
theorem unparseable_ip_reconciliation_witness :
    (main Example.config ⟨"not-an-ip"⟩ (Example.provider [])).patches = [] ∧
      (main Example.config ⟨"not-an-ip"⟩ (Example.provider [])).status
        = .fatal (.recordNotFound "not-an-ip" "Z1") :=
  (unparseable_ip_reconciliation Example.config Example.profile ⟨"not-an-ip"⟩
    (Example.provider []) (Example.envelope []) rfl (by decide)
    (by decide) rfl).2.1 rfl

/-- C10: for every profile, resolved address and successful listing response
whose result list is non-empty and holds no record whose "type" equals the
resolved record type, no PATCH call is issued, no fatal path is taken, and
the process ends with exit code 0. -/
theorem no_record_of_type_exits_zero (config : ConfigMap) (v : Configuration)
    (pub : IpAddress) (w : World) (record : Cloudflare)
    (hv : config.get "cloudflare" = some v)
    (hl : Listing v pub w record) (hs : record.Success = true)
    (hne : record.Result ≠ [])
    (hno : ∀ x ∈ record.Result, x.index "type" ≠ pub.GetRecordType) :
    (main config pub w).patches = [] ∧ (main config pub w).status = .running ∧
      (main config pub w).exitCode = 0 := by
  obtain ⟨verify, _, hm, e⟩ := main_listing config v pub w record hv hl hs
  have hlen : ¬ record.Result.length = 0 := by
    simpa [List.length_eq_zero] using hne
  rw [if_neg hlen, reconcileLoop_none v pub w _ _ hno] at e
  rw [e]
  simp [Run.patches, Run.exitCode, hm]

/-- C10 at the example scenario with a listing holding only an AAAA record. -/
theorem no_record_of_type_exits_zero_witness :
    (main Example.config Example.address
      (Example.provider [Example.record "r0" "AAAA" "2001:db8::1"])).patches = [] ∧
    (main Example.config Example.address
      (Example.provider [Example.record "r0" "AAAA" "2001:db8::1"])).status = .running ∧
    (main Example.config Example.address
      (Example.provider [Example.record "r0" "AAAA" "2001:db8::1"])).exitCode = 0 :=
  no_record_of_type_exits_zero Example.config Example.profile Example.address
    (Example.provider [Example.record "r0" "AAAA" "2001:db8::1"])
    (Example.envelope [Example.record "r0" "AAAA" "2001:db8::1"]) rfl
    (by decide) rfl (by decide) (by decide)

end DDNS
